import Mathlib

/-!
Verification development for the node-flags command-line flag library
(`src/flags.ts`).  The flag registry, per-kind value coercion and the
`parse` tokenization loop are shallowly embedded below; JavaScript string
and number builtins used by the source (`Number`, `parseInt`,
`Array.prototype.join`, `String.prototype.split`, spread, truthiness) are
modelled explicitly.  Numbers are modelled exactly as decimal fractions
`m / 10^e`; IEEE-754 rounding of doubles is not modelled (no claim here
depends on it).
-/

namespace NodeFlags

/-- Ten to a natural power, as an integer. -/
def pow10 : Nat → Int
  | 0 => 1
  | n + 1 => 10 * pow10 n

/-- An exact decimal fraction `m / 10^e`.  This represents every value a
JavaScript string-to-number conversion can denote exactly (before IEEE
rounding). -/
structure DecNum where
  m : Int
  e : Nat
deriving DecidableEq, Repr

/-- The integer `n` as a decimal fraction. -/
def DecNum.ofInt (n : Int) : DecNum := ⟨n, 0⟩

/-- Value equality of decimal fractions: `a.m / 10^a.e = b.m / 10^b.e`. -/
def DecNum.veq (a b : DecNum) : Bool :=
  a.m * pow10 b.e = b.m * pow10 a.e

/-- Whether a decimal fraction denotes zero. -/
def DecNum.isZero (a : DecNum) : Bool :=
  a.m = 0

/-- Negation of a decimal fraction. -/
def DecNum.neg (a : DecNum) : DecNum := ⟨-a.m, a.e⟩

/-- Multiplication of a decimal fraction by `10^k` for an integer `k` (the
effect of a JavaScript exponent part). -/
def DecNum.scale10 (a : DecNum) : Int → DecNum
  | .ofNat n => ⟨a.m * pow10 n, a.e⟩
  | .negSucc n => ⟨a.m, a.e + (n + 1)⟩

/-- Result of a JavaScript numeric conversion: NaN, the two infinities, or a
finite value. -/
inductive JSNum where
  | nan
  | inf
  | neginf
  | num (q : DecNum)
deriving DecidableEq, Repr

/-- The finite value carried by a `JSNum`, defaulting to `0`. -/
def JSNum.toD : JSNum → DecNum
  | .num q => q
  | _ => ⟨0, 0⟩

/-- JavaScript `isNaN` on an already-converted number. -/
def jsIsNaN : JSNum → Bool
  | .nan => true
  | _ => false

/-- JavaScript strict equality `===` restricted to numbers: `NaN` is equal to
nothing (itself included), finite values compare by value. -/
def jsNumEq : JSNum → JSNum → Bool
  | .num a, .num b => a.veq b
  | .inf, .inf => true
  | .neginf, .neginf => true
  | _, _ => false

/-- JavaScript `StrWhiteSpace` characters (the ASCII ones plus NBSP and the
BOM; the remaining Unicode space separators are omitted, no claim uses
them). -/
def jsIsWS (c : Char) : Bool :=
  [9, 10, 11, 12, 13, 32, 160, 65279].contains c.toNat

/-- Strip leading and trailing JavaScript whitespace from a character list. -/
def trimWS (l : List Char) : List Char :=
  ((l.dropWhile jsIsWS).reverse.dropWhile jsIsWS).reverse

/-- Value of a decimal digit list, most significant first. -/
def digitsToNat (ds : List Char) : Nat :=
  ds.foldl (fun a c => a * 10 + (c.toNat - 48)) 0

/-- Value of a single digit in bases up to 16, `none` for a non-digit. -/
def hexDigitVal (c : Char) : Option Nat :=
  if c.isDigit then some (c.toNat - 48)
  else if 'a' ≤ c ∧ c ≤ 'f' then some (c.toNat - 87)
  else if 'A' ≤ c ∧ c ≤ 'F' then some (c.toNat - 55)
  else none

/-- Value of a non-empty digit string in the given base, `none` when some
character is not a digit of that base. -/
def radixVal (base : Nat) (l : List Char) : Option Nat :=
  if l.isEmpty then none
  else
    l.foldl
      (fun acc c =>
        match acc, hexDigitVal c with
        | some a, some d => if d < base then some (a * base + d) else none
        | _, _ => none)
      (some 0)

/-- Exponent part of a JavaScript string numeric literal.  The empty rest is
a zero exponent; otherwise `e`/`E`, an optional sign and at least one digit
must consume the whole rest. -/
def jsExponent : List Char → Option Int
  | [] => some 0
  | c :: r =>
    if c = 'e' ∨ c = 'E' then
      match r with
      | '+' :: ds =>
        if ds ≠ [] ∧ ds.all Char.isDigit then some (digitsToNat ds) else none
      | '-' :: ds =>
        if ds ≠ [] ∧ ds.all Char.isDigit then some (-(digitsToNat ds : Int)) else none
      | ds =>
        if ds ≠ [] ∧ ds.all Char.isDigit then some (digitsToNat ds) else none
    else none

/-- Unsigned decimal body of a JavaScript numeric literal:
`digits [. digits] [exp]` or `. digits [exp]`, evaluated exactly. -/
def jsDecimalBody (l : List Char) : Option DecNum :=
  let ip := l.takeWhile Char.isDigit
  let r1 := l.dropWhile Char.isDigit
  match r1 with
  | '.' :: r2 =>
    let fp := r2.takeWhile Char.isDigit
    let r3 := r2.dropWhile Char.isDigit
    if ip.isEmpty ∧ fp.isEmpty then none
    else
      (jsExponent r3).map fun ex =>
        DecNum.scale10 ⟨digitsToNat ip * pow10 fp.length + digitsToNat fp, fp.length⟩ ex
  | _ =>
    if ip.isEmpty then none
    else (jsExponent r1).map fun ex => DecNum.scale10 ⟨digitsToNat ip, 0⟩ ex

/-- Signed decimal part of a JavaScript numeric literal, including the
`Infinity` spellings. -/
def jsSignedLiteral (l : List Char) (neg : Bool) : JSNum :=
  if l = "Infinity".data then if neg then .neginf else .inf
  else
    match jsDecimalBody l with
    | some q => .num (if neg then q.neg else q)
    | none => .nan

/-- JavaScript `Number(string)`: trim whitespace, empty means `0`, then a
hex/octal/binary literal or an optionally signed decimal literal; anything
else is `NaN`. -/
def jsToNumber (s : String) : JSNum :=
  let l := trimWS s.data
  match l with
  | [] => .num ⟨0, 0⟩
  | '0' :: c :: rest =>
    if c = 'x' ∨ c = 'X' then
      match radixVal 16 rest with | some n => .num ⟨n, 0⟩ | none => .nan
    else if c = 'o' ∨ c = 'O' then
      match radixVal 8 rest with | some n => .num ⟨n, 0⟩ | none => .nan
    else if c = 'b' ∨ c = 'B' then
      match radixVal 2 rest with | some n => .num ⟨n, 0⟩ | none => .nan
    else jsSignedLiteral l false
  | '+' :: r => jsSignedLiteral r false
  | '-' :: r => jsSignedLiteral r true
  | _ => jsSignedLiteral l false

/-- JavaScript `parseInt(s, 10)`: trim leading whitespace, optional sign,
then the longest prefix of decimal digits; `NaN` when there is none. -/
def jsParseInt (s : String) : JSNum :=
  let l := s.data.dropWhile jsIsWS
  let signAndRest : Bool × List Char :=
    match l with
    | '+' :: r => (false, r)
    | '-' :: r => (true, r)
    | r => (false, r)
  let ds := signAndRest.2.takeWhile Char.isDigit
  if ds.isEmpty then .nan
  else .num ⟨if signAndRest.1 then -(digitsToNat ds : Int) else (digitsToNat ds : Int), 0⟩

/-- JavaScript string coercion of the parser's `string | null` values, as it
happens inside template-literal error messages and `parseInt`. -/
def jsStringOfInput : Option String → String
  | none => "null"
  | some s => s

/-- JavaScript `Number` applied to the parser's `string | null` values:
`Number(null)` is `0`. -/
def jsNumberOfInput : Option String → JSNum
  | none => .num ⟨0, 0⟩
  | some s => jsToNumber s

/-- JavaScript `startsWith`. -/
def jsStartsWith (s pre : String) : Bool :=
  pre.data.isPrefixOf s.data

/-- JavaScript string truthiness: only the empty string is falsy. -/
def jsTruthyStr (s : String) : Bool :=
  s ≠ ""

/-- JavaScript `String.prototype.split` with a single-character separator. -/
def splitChar (c : Char) : List Char → List (List Char)
  | [] => [[]]
  | x :: xs =>
    let r := splitChar c xs
    if x = c then [] :: r
    else
      match r with
      | h :: t => (x :: h) :: t
      | [] => [[x]]

/-- JavaScript `Array.prototype.join`. -/
def jsJoin (sep : String) : List String → String
  | [] => ""
  | [a] => a
  | a :: b :: t => a ++ sep ++ jsJoin sep (b :: t)

/-- JavaScript `new Array(n).join(s)`: the separator repeated `n - 1`
times. -/
def newArrayJoin (n : Nat) (s : String) : String :=
  String.join (List.replicate (n - 1) s)

/-- A run of `n` spaces. -/
def strSpaces (n : Nat) : String :=
  ⟨List.replicate n ' '⟩

/-- A run of `n` carets. -/
def strCarets (n : Nat) : String :=
  ⟨List.replicate n '^'⟩

/-- JavaScript `toLowerCase` (ASCII-adequate, matching the flag tokens the
library compares against). -/
def jsToLower (s : String) : String :=
  ⟨s.data.map Char.toLower⟩

/-- The six flag kinds of the library. -/
inductive FlagKind where
  | string
  | boolean
  | integer
  | number
  | stringList
  | multiString
deriving DecidableEq, Repr

/-- Whether a kind is cumulative (`MultiStringFlag` overrides `set`). -/
def FlagKind.isMulti : FlagKind → Bool
  | .multiString => true
  | _ => false

/-- A typed flag value. -/
inductive FVal where
  | str (s : String)
  | bool (b : Bool)
  | num (q : DecNum)
  | strList (l : List String)
deriving DecidableEq, Repr

/-- A flag descriptor, mirroring the fields of the `Flag` class.
`isRequired` does not appear in `src/flags.ts`; it is modelled from the
spec (`setRequired` in the fluent configuration API). -/
structure FlagDesc where
  name : String
  kind : FlagKind
  defaultValue : FVal
  description : Option String
  currentValue : Option FVal
  validator : Option (Option FVal → Except String Unit)
  isSecret : Bool
  isSet : Bool
  isRequired : Bool

/-- The `StringFlag` constructor: a missing default becomes `""`. -/
def mkStringFlag (name : String) (dflt : Option String) : FlagDesc :=
  ⟨name, .string, .str (dflt.getD ""), none, none, none, false, false, false⟩

/-- The `BooleanFlag` constructor: a missing default becomes `false`. -/
def mkBooleanFlag (name : String) (dflt : Option Bool) : FlagDesc :=
  ⟨name, .boolean, .bool (dflt.getD false), none, none, none, false, false, false⟩

/-- The `IntegerFlag` constructor: a missing default becomes `0`. -/
def mkIntegerFlag (name : String) (dflt : Option Int) : FlagDesc :=
  ⟨name, .integer, .num (DecNum.ofInt (dflt.getD 0)), none, none, none, false, false, false⟩

/-- The `NumberFlag` constructor: a missing default becomes `0`. -/
def mkNumberFlag (name : String) (dflt : Option DecNum) : FlagDesc :=
  ⟨name, .number, .num (dflt.getD ⟨0, 0⟩), none, none, none, false, false, false⟩

/-- The `StringListFlag` constructor: a missing default becomes `[]`. -/
def mkStringListFlag (name : String) (dflt : Option (List String)) : FlagDesc :=
  ⟨name, .stringList, .strList (dflt.getD []), none, none, none, false, false, false⟩

/-- The `MultiStringFlag` constructor: a missing default becomes `[]`. -/
def mkMultiStringFlag (name : String) (dflt : Option (List String)) : FlagDesc :=
  ⟨name, .multiString, .strList (dflt.getD []), none, none, none, false, false, false⟩

/-- The fluent `setSecret`. -/
def FlagDesc.setSecret (f : FlagDesc) (b : Bool) : FlagDesc := { f with isSecret := b }

/-- The fluent `setDescription`. -/
def FlagDesc.setDescription (f : FlagDesc) (d : String) : FlagDesc :=
  { f with description := some d }

/-- Modelled from the spec: the fluent `setRequired` of the configuration
API (`setRequired` is exercised by the repository's tests but absent from
`src/flags.ts`). -/
def FlagDesc.setRequired (f : FlagDesc) (b : Bool) : FlagDesc := { f with isRequired := b }

/-- `StringFlag.parseInput`: a `null` input throws, anything else is taken
verbatim. -/
def stringParseInput : Option String → Except String FVal
  | none => .error "Invalid String flag \"null\""
  | some s => .ok (.str s)

/-- `BooleanFlag.parseInput`: `null` means `true`; otherwise the lower-cased
token is matched against the six accepted spellings (note the source
lower-cases `inp` in place, so the error message shows the lower-cased
token). -/
def booleanParseInput : Option String → Except String FVal
  | none => .ok (.bool true)
  | some s =>
    let l := jsToLower s
    if l = "1" ∨ l = "true" ∨ l = "t" then .ok (.bool true)
    else if l = "0" ∨ l = "false" ∨ l = "f" then .ok (.bool false)
    else .error ("Invalid Boolean flag \"" ++ l ++ "\"")

/-- `IntegerFlag.parseInput`: `isNaN(Number(inp)) || parseInt(inp, 10) !==
Number(inp)` rejects, otherwise `Number(inp)` is stored. -/
def integerParseInput (inp : Option String) : Except String FVal :=
  let n := jsNumberOfInput inp
  let p := jsParseInt (jsStringOfInput inp)
  if jsIsNaN n || !jsNumEq p n then
    .error ("Invalid Integer flag \"" ++ jsStringOfInput inp ++ "\"")
  else .ok (.num n.toD)

/-- `NumberFlag.parseInput`: `isNaN(Number(inp))` rejects, otherwise
`Number(inp)` is stored. -/
def numberParseInput (inp : Option String) : Except String FVal :=
  let n := jsNumberOfInput inp
  if jsIsNaN n then .error ("Invalid Number flag \"" ++ jsStringOfInput inp ++ "\"")
  else .ok (.num n.toD)

/-- `StringListFlag.parseInput`: `null` means `[]`, otherwise split on
commas. -/
def stringListParseInput : Option String → Except String FVal
  | none => .ok (.strList [])
  | some s => .ok (.strList ((splitChar ',' s.data).map fun l => ⟨l⟩))

/-- Dynamic dispatch of `parseInput`.  The `multiString` case is the base
class `Flag.parseInput`, which throws `Not implemented`; `MultiStringFlag`
overrides `set` and never reaches it. -/
def parseInputK (k : FlagKind) (inp : Option String) : Except String FVal :=
  match k with
  | .string => stringParseInput inp
  | .boolean => booleanParseInput inp
  | .integer => integerParseInput inp
  | .number => numberParseInput inp
  | .stringList => stringListParseInput inp
  | .multiString => .error "Not implemented"

/-- `Flag.set`: reject a second set, coerce the input, run the validator
(whose return value is ignored; only a raised error rejects), then commit
the value and the `isSet` latch. -/
def flagSet (f : FlagDesc) (input : Option String) : Except String FlagDesc :=
  if f.isSet then .error "Flag already set"
  else
    match parseInputK f.kind input with
    | .error m => .error m
    | .ok v =>
      match (match f.validator with
             | some chk => chk (some v)
             | none => .ok ()) with
      | .error m => .error m
      | .ok _ => .ok { f with currentValue := some v, isSet := true }

/-- `MultiStringFlag.set`: run the validator on the raw input, then
`currentValue.push(...input)` — the source spreads the received string, so
its individual characters are appended — and latch `isSet`.  A `null` input
would throw (`null` is not iterable). -/
def multiStringSet (f : FlagDesc) (input : Option String) : Except String FlagDesc :=
  match (match f.validator with
         | some chk => chk (input.map FVal.str)
         | none => .ok ()) with
  | .error m => .error m
  | .ok _ =>
    match input with
    | none => .error "input is not iterable"
    | some s =>
      let cur : List String :=
        match f.currentValue with
        | some (.strList l) => l
        | _ => []
      .ok { f with
            currentValue := some (.strList (cur ++ s.data.map fun c => String.mk [c])),
            isSet := true }

/-- Dynamic dispatch of `set`. -/
def descSet (f : FlagDesc) (input : Option String) : Except String FlagDesc :=
  match f.kind with
  | .multiString => multiStringSet f input
  | _ => flagSet f input

/-- The registry `FLAGS`, an insertion-ordered name-keyed mapping. -/
abbrev Registry := List FlagDesc

/-- `FLAGS[name]` lookup. -/
def lookupFlag (st : Registry) (name : String) : Option FlagDesc :=
  List.find? (fun g => g.name == name) st

/-- Replacement of the (mutated) descriptor stored under `name`. -/
def updateFlag (st : Registry) (name : String) (f : FlagDesc) : Registry :=
  List.map (fun g => if g.name == name then f else g) st

/-- `Flag.get`: the current value once set, the default before. -/
def descBaseGet (f : FlagDesc) : Option FVal :=
  if f.isSet then f.currentValue else some f.defaultValue

/-- JavaScript truthiness of a possibly-null flag value. -/
def jsTruthy : Option FVal → Bool
  | none => false
  | some (.str s) => s ≠ ""
  | some (.bool b) => b
  | some (.num q) => !q.isZero
  | some (.strList _) => true

/-- Dynamic dispatch of `get`: `BooleanFlag.get` applies the `!!` truthiness
projection to the base result, the other kinds return it unchanged. -/
def descGet (f : FlagDesc) : Option FVal :=
  match f.kind with
  | .boolean => some (.bool (jsTruthy (descBaseGet f)))
  | _ => descBaseGet f

/-- Mutable module state: the registry plus the `parseCalled` latch. -/
structure PState where
  flags : Registry
  parseCalled : Bool

/-- One recorded invocation of `FLAGS[flag].set(value)` by the parser, with
the descriptor's `isSet` at the moment of the call and whether the
descriptor is the cumulative kind. -/
structure SetCall where
  flag : String
  value : Option String
  wasSet : Bool
  cumulative : Bool
deriving DecidableEq, Repr

/-- How the scanning loop ended. -/
inductive LoopExit where
  | completed
  | early (trailing : List String)
  | failed (idx : Nat) (msg : String)
deriving DecidableEq, Repr

/-- Result of the scanning loop: registry after the scan, how it ended, the
mutated remainder of the argument array (the source splices consumed value
elements out of the caller's array and rewrites flag elements in place),
and the trace of `set` invocations. -/
structure LoopResult where
  st : Registry
  exit : LoopExit
  finalRem : List String
  trace : List SetCall

/-- Splitting of a `--token`: strip the dashes, and when an `=` occurs split
at the first one, rejoining the remainder (`parts.slice(1).join("=")`). -/
def splitFlagToken (arg : String) : String × Option String :=
  let flag : String := ⟨arg.data.drop 2⟩
  match splitChar '=' flag.data with
  | p :: q :: rest => (⟨p⟩, some (jsJoin "=" ((q :: rest).map fun l => ⟨l⟩)))
  | _ => (flag, none)

/-- The space-separated-value step of the tokenizer: when no `=` value was
found and the next element is truthy (non-empty) and does not start with
`--`, it is consumed as the value, the flag element is rewritten to the
merged text, and the scan advances past it.  Returns the flag name, the
value, the (possibly merged) element stored at the current index, and the
remaining elements. -/
def extractValue (arg : String) (rest : List String) :
    String × Option String × String × List String :=
  let fv := splitFlagToken arg
  match fv.2, rest with
  | none, next :: rest2 =>
    if jsTruthyStr next && ! jsStartsWith next "--" then
      (fv.1, some next, arg ++ " " ++ next, rest2)
    else (fv.1, none, arg, next :: rest2)
  | v, r => (fv.1, v, arg, r)

/-- Result of resolving one flag token against the registry: the updated
registry, the `set` invocation made (if any), and an error message when the
token failed. -/
structure TokRes where
  st : Registry
  calls : List SetCall
  err : Option String

/-- Resolution of one flag token: the `--no` reinterpretation (only when the
name is undeclared, the value is `null` and the name starts with `no`),
then the registry lookup, `set` dispatch, and the unrecognized-flag error
carrying the original element text. -/
def procToken (ign : Bool) (st : Registry) (flag : String) (value : Option String)
    (origArg : String) : TokRes :=
  let fv : String × Option String :=
    if (lookupFlag st flag).isNone && value.isNone && jsStartsWith flag "no" then
      (⟨flag.data.drop 2⟩, some "0")
    else (flag, value)
  match lookupFlag st fv.1 with
  | some f =>
    let call : SetCall := ⟨fv.1, fv.2, f.isSet, f.kind.isMulti⟩
    match descSet f fv.2 with
    | .ok f2 => ⟨updateFlag st fv.1 f2, [call], none⟩
    | .error m => ⟨st, [call], some m⟩
  | none =>
    if ign then ⟨st, [], none⟩
    else ⟨st, [], some ("Unrecognized flag name \"" ++ origArg ++ "\"")⟩

/-- The scanning loop of `parse`, left to right over the argument vector.
`pre` is the already-processed prefix of the (mutated) argument array; an
element equal to `--` ends the scan early returning the remainder, a
`--`-prefixed element is tokenized and resolved, anything else is an
invalid argument.  The loop consumes at least one element per iteration, so
`fuel` is an upper bound on the iterations; `parse` supplies the argument
count, making the out-of-fuel case unreachable. -/
def parseLoop (ign : Bool) : Nat → Registry → List String → List SetCall →
    List String → LoopResult
  | _, st, _, tr, [] => ⟨st, .completed, [], tr⟩
  | 0, st, _, tr, rem => ⟨st, .completed, rem, tr⟩
  | fuel + 1, st, pre, tr, arg :: rest =>
    if arg = "--" then ⟨st, .early rest, arg :: rest, tr⟩
    else if jsStartsWith arg "--" then
      let fv := splitFlagToken arg
      match fv.2, rest with
      | none, next :: rest2 =>
        if jsTruthyStr next && ! jsStartsWith next "--" then
          let argM := arg ++ " " ++ next
          let r := procToken ign st fv.1 (some next) arg
          match r.err with
          | some m => ⟨r.st, .failed pre.length m, argM :: rest2, tr ++ r.calls⟩
          | none =>
            let res := parseLoop ign fuel r.st (pre ++ [argM]) (tr ++ r.calls) rest2
            ⟨res.st, res.exit, argM :: res.finalRem, res.trace⟩
        else
          let r := procToken ign st fv.1 none arg
          match r.err with
          | some m => ⟨r.st, .failed pre.length m, arg :: next :: rest2, tr ++ r.calls⟩
          | none =>
            let res := parseLoop ign fuel r.st (pre ++ [arg]) (tr ++ r.calls) (next :: rest2)
            ⟨res.st, res.exit, arg :: res.finalRem, res.trace⟩
      | v, r2 =>
        let r := procToken ign st fv.1 v arg
        match r.err with
        | some m => ⟨r.st, .failed pre.length m, arg :: r2, tr ++ r.calls⟩
        | none =>
          let res := parseLoop ign fuel r.st (pre ++ [arg]) (tr ++ r.calls) r2
          ⟨res.st, res.exit, arg :: res.finalRem, res.trace⟩
    else ⟨st, .failed pre.length ("Invalid argument \"" ++ arg ++ "\""), arg :: rest, tr⟩

/-- Outcome of a `parse` call: normal return with the trailing arguments,
help interception (the source prints help and exits the process with status
0), a parse error (the source either exits with status 1 or throws the
formatted message, by the `exitOnError` toggle), or — modelled from the
spec — a missing required flag. -/
inductive ParseOutcome where
  | ok (trailing : List String)
  | helpExit
  | err (idx : Nat) (msg : String)
  | missingRequired (name : String)
deriving DecidableEq, Repr

/-- Result of a `parse` call: final module state, outcome, the caller's
argument array as `parse` leaves it (the source mutates it in place), and
the trace of `set` invocations. -/
structure ParseResult where
  state : PState
  outcome : ParseOutcome
  finalArgs : List String
  trace : List SetCall

/-- Modelled from the spec: after the scan completes (not terminated early
by `--`), a descriptor with `isRequired` true and `isSet` false makes the
parse raise `MissingRequiredFlagError` naming it. -/
def findMissingRequired (st : Registry) : Option FlagDesc :=
  List.find? (fun f => f.isRequired && !f.isSet) st

/-- `parse(args, ignoreUnrecognized)`: a no-op returning `[]` once
`parseCalled` is latched; otherwise the scan runs, and on normal completion
the required-flag check (modelled from the spec), the latch, and the `help`
interception follow.  The early `--` return path of the source returns the
trailing arguments directly and reaches none of these. -/
def parse (ps : PState) (args : List String) (ign : Bool := false) : ParseResult :=
  if ps.parseCalled then ⟨ps, .ok [], args, []⟩
  else
    let r := parseLoop ign args.length ps.flags [] [] args
    match r.exit with
    | .early trailing => ⟨⟨r.st, false⟩, .ok trailing, r.finalRem, r.trace⟩
    | .failed i m => ⟨⟨r.st, false⟩, .err i m, r.finalRem, r.trace⟩
    | .completed =>
      match findMissingRequired r.st with
      | some f => ⟨⟨r.st, false⟩, .missingRequired f.name, r.finalRem, r.trace⟩
      | none =>
        if jsTruthy (match lookupFlag r.st "help" with
                     | some h => descGet h
                     | none => none) then
          ⟨⟨r.st, true⟩, .helpExit, r.finalRem, r.trace⟩
        else ⟨⟨r.st, true⟩, .ok [], r.finalRem, r.trace⟩

/-- The formatted message of `throwFlagParseError`: the error text, the
argument line joined by spaces behind a two-space indent, and a caret line
built from `new Array(prefix + 2).join(" ")` and
`new Array(token.length + 1).join("^")` behind a one-space indent. -/
def flagParseErrorMessage (args : List String) (i : Nat) (msg : String) : String :=
  "FLAG PARSING ERROR: " ++ msg ++
    "\n  " ++ jsJoin " " args ++
    "\n " ++ newArrayJoin ((jsJoin " " (args.take i)).length + 2) " " ++
    newArrayJoin ((args.getD i "").length + 1) "^"

/-- The built-in `help` flag installed by `registerInternalFlags`. -/
def helpFlag : FlagDesc :=
  (mkBooleanFlag "help" none).setDescription "Shows this help text." |>.setSecret true

/-- The state `reset()` leaves behind: the `parseCalled` latch cleared and
the registry reduced to the built-in `help` flag. -/
def resetState : PState := ⟨[helpFlag], false⟩

/-- `addFlag`: declaration fails after `parse()` committed and on a
duplicate name. -/
def addFlag (ps : PState) (f : FlagDesc) : Except String PState :=
  if ps.parseCalled then .error "Can not register new flags after parse()"
  else if (lookupFlag ps.flags f.name).isSome then
    .error ("Flag already defined: \"" ++ f.name ++ "\"")
  else .ok ⟨ps.flags ++ [f], ps.parseCalled⟩

/-- C2 (code bug): a `parse` terminated by a `--` element returns normally
but never sets the `parseCalled` latch (the source returns from inside the
loop before the `parseCalled = true` line), so a second `parse` before any
`reset` is not a no-op: here it sets the boolean flag `b`, although the
source documents `parse` as idempotent across calls. -/
theorem parse_after_doubleDash_termination_not_noop :
    (parse ⟨[helpFlag, mkBooleanFlag "b" (some false)], false⟩ ["--"]).outcome = .ok [] ∧
    (parse ⟨[helpFlag, mkBooleanFlag "b" (some false)], false⟩ ["--"]).state.parseCalled = false ∧
    ((parse ⟨[helpFlag, mkBooleanFlag "b" (some false)], false⟩ ["--"]).state.flags.map
      fun f => (f.name, f.isSet)) = [("help", false), ("b", false)] ∧
    (parse (parse ⟨[helpFlag, mkBooleanFlag "b" (some false)], false⟩ ["--"]).state
      ["--b"]).outcome = .ok [] ∧
    ((lookupFlag (parse (parse ⟨[helpFlag, mkBooleanFlag "b" (some false)], false⟩ ["--"]).state
      ["--b"]).state.flags "b").map fun f => (f.isSet, descGet f)) =
        some (true, some (.bool true)) := by
  decide

/-- C3 (code bug): parsing `--x=ab` into a MultiString flag appends the two
characters `"a"`, `"b"` — `this.currentValue.push(...input)` spreads the
received string — instead of the single whole value `"ab"`; `isSet` does
become true on the first occurrence. -/
theorem multiString_spreads_value_into_characters :
    (parse ⟨[helpFlag, mkMultiStringFlag "x" (some [])], false⟩ ["--x=ab"]).outcome = .ok [] ∧
    ((lookupFlag (parse ⟨[helpFlag, mkMultiStringFlag "x" (some [])], false⟩
      ["--x=ab"]).state.flags "x").map descGet) = some (some (.strList ["a", "b"])) ∧
    ((lookupFlag (parse ⟨[helpFlag, mkMultiStringFlag "x" (some [])], false⟩
      ["--x=ab"]).state.flags "x").map fun f => f.isSet) = some true ∧
    FVal.strList ["a", "b"] ≠ FVal.strList ["ab"] := by
  decide

/-- C4 counterexample: for the error raised at token index 1 of
`["--a", "--b"]`, the offending token `--b` starts at column 6 of the
argument line `"  --a --b"`, but the caret run of the next line starts at
column 5 (under the separating space), one column early — the underline
does not start exactly at the token's start column. -/
theorem caret_underline_misaligned_at_index_one :
    flagParseErrorMessage ["--a", "--b"] 1 "m" =
      "FLAG PARSING ERROR: m\n  --a --b\n     ^^^" ∧
    ("  --a --b".data.drop 6).take 3 = "--b".data ∧
    "     ^^^".data = List.replicate 5 ' ' ++ List.replicate 3 '^' ∧
    (5 : Nat) ≠ 6 := by
  decide

/-- C5 counterexample: within a single `parse` over `["--one=a", "--one=b"]`
the parser invokes `set` on the non-cumulative string flag `one` a second
time while its `isSet` is already true (the recorded second invocation has
`wasSet = true`), so `AlreadySetError` does occur via the parser. -/
theorem parser_invokes_set_on_already_set_flag :
    (parse ⟨[helpFlag, mkStringFlag "one" (some "")], false⟩ ["--one=a", "--one=b"]).trace =
      [⟨"one", some "a", false, false⟩, ⟨"one", some "b", true, false⟩] ∧
    ∃ c ∈ (parse ⟨[helpFlag, mkStringFlag "one" (some "")], false⟩
      ["--one=a", "--one=b"]).trace, c.cumulative = false ∧ c.wasSet = true := by
  decide

/-- C8 counterexample: in `["--s", ""]` the element following `--s` exists
and does not begin with `--`, yet it is not consumed as the value — the
source guards the space-separated form with JavaScript truthiness of
`args[i + 1]`, and the empty string is falsy — so `set` receives `null`
(the recorded invocation's value is `none`) and the parse fails. -/
theorem empty_next_element_not_consumed_as_value :
    (parse ⟨[helpFlag, mkStringFlag "s" (some "d")], false⟩ ["--s", ""]).trace =
      [⟨"s", none, false, false⟩] ∧
    jsStartsWith "" "--" = false ∧
    (parse ⟨[helpFlag, mkStringFlag "s" (some "d")], false⟩ ["--s", ""]).outcome =
      .err 0 "Invalid String flag \"null\"" := by
  decide

/-- Value equality of decimal fractions is symmetric. -/
theorem DecNum.veq_symm {a b : DecNum} (h : a.veq b = true) : b.veq a = true := by
  simp only [DecNum.veq, decide_eq_true_eq] at h ⊢
  omega

/-- The shape of `parseInt` results: `NaN` or an exact integer. -/
theorem jsParseInt_shape (s : String) :
    jsParseInt s = .nan ∨ ∃ k : Int, jsParseInt s = .num (DecNum.ofInt k) := by
  simp only [jsParseInt]
  split
  case _ => exact Or.inl rfl
  case _ => exact Or.inr ⟨_, rfl⟩

/-- C6: Boolean coercion.  A `null` input stores `true` (both at the
`parseInput` level and through `set` on an unset descriptor); a string
input is lower-cased and matched against the three true spellings and the
three false spellings, any other token raising the invalid-value error; and
`get` always applies the truthiness projection to the stored-or-default
value, so a missing (nullish) default reads as `false`. -/
theorem boolean_flag_coercion_and_truthiness :
    booleanParseInput none = .ok (.bool true) ∧
    (∀ f : FlagDesc, f.kind = .boolean → f.isSet = false → f.validator = none →
      flagSet f none = .ok { f with currentValue := some (.bool true), isSet := true }) ∧
    (∀ v : String,
      ((jsToLower v = "1" ∨ jsToLower v = "true" ∨ jsToLower v = "t") →
        booleanParseInput (some v) = .ok (.bool true)) ∧
      ((jsToLower v = "0" ∨ jsToLower v = "false" ∨ jsToLower v = "f") →
        booleanParseInput (some v) = .ok (.bool false)) ∧
      (¬ (jsToLower v = "1" ∨ jsToLower v = "true" ∨ jsToLower v = "t") →
        ¬ (jsToLower v = "0" ∨ jsToLower v = "false" ∨ jsToLower v = "f") →
        booleanParseInput (some v) = .error ("Invalid Boolean flag \"" ++ jsToLower v ++ "\""))) ∧
    (∀ f : FlagDesc, f.kind = .boolean →
      descGet f = some (.bool (jsTruthy (descBaseGet f)))) ∧
    descGet (mkBooleanFlag "b" none) = some (.bool false) ∧
    (∀ (f : FlagDesc) (v : String) (b : Bool), f.kind = .boolean → f.isSet = false →
      f.validator = none → booleanParseInput (some v) = .ok (.bool b) →
      flagSet f (some v) = .ok { f with currentValue := some (.bool b), isSet := true }) := by
  refine ⟨rfl, ?_, ?_, ?_, rfl, ?_⟩
  · intro f hk hs hv
    simp [flagSet, hs, hv, parseInputK, hk, booleanParseInput]
  · intro v
    refine ⟨fun h => ?_, fun h => ?_, fun h1 h2 => ?_⟩
    · simp only [booleanParseInput]
      rw [if_pos h]
    · simp only [booleanParseInput]
      rw [if_neg ?_, if_pos h]
      rcases h with h | h | h <;> simp [h]
    · simp only [booleanParseInput]
      rw [if_neg h1, if_neg h2]
  · intro f hk
    simp [descGet, hk]
  · intro f v b hk hs hv hb
    simp [flagSet, hs, hv, parseInputK, hk, hb]

/-- Witness for C6 at concrete inputs: `T` lower-cases to an accepted true
spelling, `xxx` is rejected, and `set(null)` on a fresh boolean flag stores
`true`. -/
theorem boolean_flag_coercion_witness :
    booleanParseInput (some "T") = .ok (.bool true) ∧
    booleanParseInput (some "xxx") = .error ("Invalid Boolean flag \"" ++ jsToLower "xxx" ++ "\"") ∧
    flagSet (mkBooleanFlag "b" none) none =
      .ok { mkBooleanFlag "b" none with currentValue := some (.bool true), isSet := true } ∧
    flagSet (mkBooleanFlag "c" none) (some "t") =
      .ok { mkBooleanFlag "c" none with currentValue := some (.bool true), isSet := true } := by
  refine ⟨(boolean_flag_coercion_and_truthiness.2.2.1 "T").1 (by decide),
    (boolean_flag_coercion_and_truthiness.2.2.1 "xxx").2.2 (by decide) (by decide),
    boolean_flag_coercion_and_truthiness.2.1 (mkBooleanFlag "b" none) rfl rfl rfl,
    boolean_flag_coercion_and_truthiness.2.2.2.2.2 (mkBooleanFlag "c" none) "t" true rfl rfl
      rfl rfl⟩

/-- C7: Integer coercion.  `set(v)` on an unset integer flag succeeds
exactly when `Number(v)` is not NaN and strictly equals `parseInt(v, 10)`
(the base-10 integer round-trip of the source); on success the stored value
is `Number(v)`, which this round-trip forces to be an exact integer; on
failure the invalid-value error carries the offending token. -/
theorem integer_flag_roundtrip (f : FlagDesc) (v : String)
    (hk : f.kind = .integer) (hs : f.isSet = false) (hv : f.validator = none) :
    ((∃ f2, flagSet f (some v) = .ok f2) ↔
      (jsIsNaN (jsToNumber v) = false ∧ jsNumEq (jsParseInt v) (jsToNumber v) = true)) ∧
    (∀ f2, flagSet f (some v) = .ok f2 →
      f2.currentValue = some (.num (jsToNumber v).toD) ∧ f2.isSet = true ∧
      ∃ k : Int, DecNum.veq (jsToNumber v).toD (DecNum.ofInt k) = true) ∧
    ((jsIsNaN (jsToNumber v) = true ∨ jsNumEq (jsParseInt v) (jsToNumber v) = false) →
      flagSet f (some v) = .error ("Invalid Integer flag \"" ++ v ++ "\"")) := by
  have hunf : flagSet f (some v) =
      if jsIsNaN (jsToNumber v) || !jsNumEq (jsParseInt v) (jsToNumber v) then
        .error ("Invalid Integer flag \"" ++ v ++ "\"")
      else .ok { f with currentValue := some (.num (jsToNumber v).toD), isSet := true } := by
    cases hcc : jsIsNaN (jsToNumber v) || !jsNumEq (jsParseInt v) (jsToNumber v) <;>
      simp [flagSet, hs, hv, parseInputK, hk, integerParseInput, jsNumberOfInput,
        jsStringOfInput, hcc]
  by_cases hc : jsIsNaN (jsToNumber v) || !jsNumEq (jsParseInt v) (jsToNumber v)
  · rw [hunf, if_pos hc]
    simp only [Bool.or_eq_true, Bool.not_eq_true'] at hc
    refine ⟨?_, ?_, fun _ => rfl⟩
    · constructor
      · rintro ⟨f2, h⟩
        cases h
      · rintro ⟨h1, h2⟩
        rcases hc with hc | hc
        · rw [h1] at hc
          cases hc
        · rw [h2] at hc
          cases hc
    · intro f2 h
      cases h
  · rw [hunf, if_neg hc]
    simp only [Bool.or_eq_true, Bool.not_eq_true', not_or, Bool.not_eq_true,
      Bool.not_eq_false] at hc
    refine ⟨⟨fun _ => ⟨hc.1, hc.2⟩, fun _ => ⟨_, rfl⟩⟩, ?_, ?_⟩
    · intro f2 h
      cases h
      refine ⟨rfl, rfl, ?_⟩
      rcases jsParseInt_shape v with hp | ⟨k, hp⟩
      · rw [hp] at hc
        rcases hq : jsToNumber v with _ | _ | _ | q <;> rw [hq] at hc <;> simp [jsNumEq] at hc
      · refine ⟨k, ?_⟩
        have h2 := hc.2
        rw [hp] at h2
        rcases hq : jsToNumber v with _ | _ | _ | q <;> rw [hq] at h2 <;>
          simp [jsNumEq] at h2
        exact DecNum.veq_symm h2
    · intro h
      rcases h with h | h
      · exact absurd h (by simp [hc.1])
      · exact absurd h (by simp [hc.2])

/-- Witness for C7 at concrete inputs: the fresh integer flag `n` rejects
the fractional token `1.5` and accepts `42`. -/
theorem integer_flag_roundtrip_witness :
    flagSet (mkIntegerFlag "n" none) (some "1.5") = .error ("Invalid Integer flag \"1.5\"") ∧
    (∃ f2, flagSet (mkIntegerFlag "n" none) (some "42") = .ok f2) := by
  refine ⟨(integer_flag_roundtrip (mkIntegerFlag "n" none) "1.5" rfl rfl rfl).2.2 ?_,
    ((integer_flag_roundtrip (mkIntegerFlag "n" none) "42" rfl rfl rfl).1).2 ?_⟩
  · exact Or.inr (by decide)
  · exact ⟨by decide, by decide⟩

/-- Splitting on a character absent from the list returns the list whole. -/
theorem splitChar_single (c : Char) (l : List Char) (h : ∀ x ∈ l, ¬ x = c) :
    splitChar c l = [l] := by
  induction l with
  | nil => rfl
  | cons x xs ih =>
    simp only [splitChar, ih fun y hy => h y (List.mem_cons_of_mem _ hy)]
    rw [if_neg (h x (List.mem_cons_self _ _))]

/-- The trace of `set` invocations survives the post-scan bookkeeping of
`parse` unchanged. -/
theorem parse_trace_eq (st : Registry) (args : List String) (ign : Bool) :
    (parse ⟨st, false⟩ args ign).trace = (parseLoop ign args.length st [] [] args).trace := by
  simp only [parse]
  rw [if_neg Bool.false_ne_true]
  rcases parseLoop ign args.length st [] [] args with ⟨st2, ex, fr, tr⟩
  cases ex with
  | completed =>
    rcases hm : findMissingRequired st2 with _ | f
    · simp only [hm]
      split <;> rfl
    · simp only [hm]
  | early t => rfl
  | failed i m => rfl

/-- Splitting the token `--noX` when `X` contains no `=`. -/
theorem splitFlagToken_noPrefix (X : String) (hne : '=' ∉ X.data) :
    splitFlagToken ("--no" ++ X) = ("no" ++ X, none) := by
  have hsc : splitChar '=' ('n' :: 'o' :: X.data) = [('n' :: 'o' :: X.data)] := by
    apply splitChar_single
    intro x hx
    rcases hx with _ | ⟨_, hx⟩
    · decide
    rcases hx with _ | ⟨_, hx⟩
    · decide
    · exact fun he => hne (he ▸ hx)
  show (match splitChar '=' ('n' :: 'o' :: X.data) with
        | p :: q :: rest => ((⟨p⟩ : String), some (jsJoin "=" ((q :: rest).map fun l => ⟨l⟩)))
        | _ => ((⟨'n' :: 'o' :: X.data⟩ : String), none)) = ("no" ++ X, none)
  rw [hsc]
  rfl

/-- C9: the `--no` negation shorthand.  A token `--noX` (with no `=`) whose
name `noX` is undeclared and whose value is null is reinterpreted as flag
`X` with the literal value `"0"` — the parser's one `set` invocation is on
`X` with `"0"` — while a declared `noX` is set directly, without
reinterpretation. -/
theorem no_prefix_reinterpretation (X : String) (st : Registry) (hne : '=' ∉ X.data) :
    (∀ f, lookupFlag st ("no" ++ X) = none → lookupFlag st X = some f →
      (parse ⟨st, false⟩ ["--no" ++ X]).trace = [⟨X, some "0", f.isSet, f.kind.isMulti⟩]) ∧
    (∀ g, lookupFlag st ("no" ++ X) = some g →
      (parse ⟨st, false⟩ ["--no" ++ X]).trace =
        [⟨"no" ++ X, none, g.isSet, g.kind.isMulti⟩]) := by
  have hne2 : ¬ ("--no" ++ X) = "--" := by
    intro h
    have h2 : ('-' :: '-' :: 'n' :: 'o' :: X.data) = ['-', '-'] := congrArg String.data h
    simp at h2
  have hsw : jsStartsWith ("--no" ++ X) "--" = true := rfl
  have hsplit := splitFlagToken_noPrefix X hne
  have hsw2 : jsStartsWith ("no" ++ X) "no" = true := by
    show List.isPrefixOf "no".data ("no" ++ X).data = true
    rw [show ("no" ++ X).data = 'n' :: 'o' :: X.data from rfl]
    simp [List.isPrefixOf]
  have hXd : (⟨("no" ++ X).data.drop 2⟩ : String) = X := rfl
  constructor
  · intro f hno hX
    rw [parse_trace_eq]
    have hproc : procToken false st ("no" ++ X) none ("--no" ++ X) =
        (match descSet f (some "0") with
         | .ok f2 => ⟨updateFlag st X f2, [⟨X, some "0", f.isSet, f.kind.isMulti⟩], none⟩
         | .error m => ⟨st, [⟨X, some "0", f.isSet, f.kind.isMulti⟩], some m⟩) := by
      simp only [procToken, hno, Option.isNone_none, hsw2, Bool.and_self, if_true,
        Bool.and_true, Bool.true_and]
      rw [hXd, hX]
    cases hds : descSet f (some "0") with
    | ok f2 =>
      simp only [parseLoop, hne2, if_false, hsw, if_true, hsplit, hproc, hds,
        List.nil_append]
    | error m =>
      simp only [parseLoop, hne2, if_false, hsw, if_true, hsplit, hproc, hds,
        List.nil_append]
  · intro g hg
    rw [parse_trace_eq]
    have hproc : procToken false st ("no" ++ X) none ("--no" ++ X) =
        (match descSet g none with
         | .ok f2 => ⟨updateFlag st ("no" ++ X) f2,
             [⟨"no" ++ X, none, g.isSet, g.kind.isMulti⟩], none⟩
         | .error m => ⟨st, [⟨"no" ++ X, none, g.isSet, g.kind.isMulti⟩], some m⟩) := by
      simp only [procToken, hg]
      rw [if_neg (by simp [hg])]
      rw [hg]
    cases hds : descSet g none with
    | ok f2 =>
      simp only [parseLoop, hne2, if_false, hsw, if_true, hsplit, hproc, hds,
        List.nil_append]
    | error m =>
      simp only [parseLoop, hne2, if_false, hsw, if_true, hsplit, hproc, hds,
        List.nil_append]

/-- A non-cumulative descriptor whose `isSet` latch is up refuses `set`. -/
theorem descSet_already_set (f : FlagDesc) (v : Option String)
    (hm : f.kind.isMulti = false) (hs : f.isSet = true) :
    descSet f v = .error "Flag already set" := by
  unfold descSet
  split
  · rename_i hk
    rw [hk] at hm
    simp [FlagKind.isMulti] at hm
  · simp [flagSet, hs]

/-- A `set` invocation recorded by `procToken` on a non-cumulative
descriptor whose latch was already up makes the token fail with the
`AlreadySetError` message. -/
theorem procToken_badcall (ign : Bool) (st : Registry) (flag : String)
    (value : Option String) (orig : String) (c : SetCall)
    (hc : c ∈ (procToken ign st flag value orig).calls)
    (hcum : c.cumulative = false) (hws : c.wasSet = true) :
    (procToken ign st flag value orig).err = some "Flag already set" := by
  rcases hres : procToken ign st flag value orig with ⟨st2, calls, errv⟩
  rw [hres] at hc
  simp only at hc
  simp only [procToken] at hres
  split at hres
  · rename_i f heq
    split at hres
    · rename_i f2 heq2
      cases hres
      simp only [List.mem_singleton] at hc
      subst hc
      simp only at hcum hws
      rw [descSet_already_set f _ hcum hws] at heq2
      cases heq2
    · rename_i m heq2
      cases hres
      simp only [List.mem_singleton] at hc
      subst hc
      simp only at hcum hws
      rw [descSet_already_set f _ hcum hws] at heq2
      cases heq2
      rfl
  · split at hres <;> cases hres <;> cases hc

/-- A token that resolved without error recorded no invocation of a
non-cumulative `set` with the latch already up. -/
theorem procToken_clean (ign : Bool) (st : Registry) (flag : String)
    (value : Option String) (orig : String)
    (hne : (procToken ign st flag value orig).err = none) :
    ∀ c ∈ (procToken ign st flag value orig).calls,
      c.cumulative = false → c.wasSet = false := by
  intro c hc hcum
  cases hws : c.wasSet
  · rfl
  · rw [procToken_badcall ign st flag value orig c hc hcum hws] at hne
    cases hne

/-- Scanning-loop invariant for the already-set latch: whenever the trace
records an invocation of a non-cumulative `set` with `isSet` already true,
the loop has stopped with the `AlreadySetError` message as a positional
failure. -/
theorem parseLoop_alreadySet (ign : Bool) :
    ∀ (fuel : Nat) (rem : List String) (st : Registry) (pre : List String) (tr : List SetCall),
      (∀ c ∈ tr, c.cumulative = false → c.wasSet = false) →
      ∀ c ∈ (parseLoop ign fuel st pre tr rem).trace, c.cumulative = false → c.wasSet = true →
        ∃ i, (parseLoop ign fuel st pre tr rem).exit = .failed i "Flag already set" := by
  intro fuel
  induction fuel with
  | zero =>
    intro rem st pre tr hclean c hc hcum hws
    match rem with
    | [] => exact absurd (hclean c hc hcum) (by simp [hws])
    | arg :: rest => exact absurd (hclean c hc hcum) (by simp [hws])
  | succ n ih =>
    intro rem st pre tr hclean
    match rem with
    | [] =>
      intro c hc hcum hws
      exact absurd (hclean c hc hcum) (by simp [hws])
    | arg :: rest =>
      intro c hc hcum hws
      simp only [parseLoop] at hc ⊢
      by_cases h1 : arg = "--"
      · rw [if_pos h1] at hc ⊢
        exact absurd (hclean c hc hcum) (by simp [hws])
      · rw [if_neg h1] at hc ⊢
        by_cases h2 : jsStartsWith arg "--" = true
        case neg =>
          rw [if_neg h2] at hc ⊢
          exact absurd (hclean c hc hcum) (by simp [hws])
        case pos =>
          rw [if_pos h2] at hc ⊢
          rcases h3 : (splitFlagToken arg).2 with _ | v
          · rcases rest with _ | ⟨next, rest2⟩
            · simp only [h3] at hc ⊢
              rcases heq : (procToken ign st (splitFlagToken arg).1 none arg).err with _ | m
              · simp only [heq] at hc ⊢
                refine ih [] _ _ _ ?_ c hc hcum hws
                intro c2 hc2 hcum2
                rcases List.mem_append.mp hc2 with h | h
                · exact hclean c2 h hcum2
                · exact procToken_clean ign st _ _ _ heq c2 h hcum2
              · simp only [heq] at hc ⊢
                rcases List.mem_append.mp hc with h | h
                · exact absurd (hclean c h hcum) (by simp [hws])
                · have hb := procToken_badcall ign st _ _ _ c h hcum hws
                  rw [hb] at heq
                  injection heq with hm
                  exact ⟨pre.length, by rw [← hm]⟩
            · simp only [h3] at hc ⊢
              by_cases h4 : (jsTruthyStr next && ! jsStartsWith next "--") = true
              case pos =>
                rw [if_pos h4] at hc ⊢
                rcases heq : (procToken ign st (splitFlagToken arg).1 (some next) arg).err
                  with _ | m
                · simp only [heq] at hc ⊢
                  refine ih rest2 _ _ _ ?_ c hc hcum hws
                  intro c2 hc2 hcum2
                  rcases List.mem_append.mp hc2 with h | h
                  · exact hclean c2 h hcum2
                  · exact procToken_clean ign st _ _ _ heq c2 h hcum2
                · simp only [heq] at hc ⊢
                  rcases List.mem_append.mp hc with h | h
                  · exact absurd (hclean c h hcum) (by simp [hws])
                  · have hb := procToken_badcall ign st _ _ _ c h hcum hws
                    rw [hb] at heq
                    injection heq with hm
                    exact ⟨pre.length, by rw [← hm]⟩
              case neg =>
                rw [if_neg h4] at hc ⊢
                rcases heq : (procToken ign st (splitFlagToken arg).1 none arg).err with _ | m
                · simp only [heq] at hc ⊢
                  refine ih (next :: rest2) _ _ _ ?_ c hc hcum hws
                  intro c2 hc2 hcum2
                  rcases List.mem_append.mp hc2 with h | h
                  · exact hclean c2 h hcum2
                  · exact procToken_clean ign st _ _ _ heq c2 h hcum2
                · simp only [heq] at hc ⊢
                  rcases List.mem_append.mp hc with h | h
                  · exact absurd (hclean c h hcum) (by simp [hws])
                  · have hb := procToken_badcall ign st _ _ _ c h hcum hws
                    rw [hb] at heq
                    injection heq with hm
                    exact ⟨pre.length, by rw [← hm]⟩
          · simp only [h3] at hc ⊢
            rcases heq : (procToken ign st (splitFlagToken arg).1 (some v) arg).err with _ | m
            · simp only [heq] at hc ⊢
              refine ih rest _ _ _ ?_ c hc hcum hws
              intro c2 hc2 hcum2
              rcases List.mem_append.mp hc2 with h | h
              · exact hclean c2 h hcum2
              · exact procToken_clean ign st _ _ _ heq c2 h hcum2
            · simp only [heq] at hc ⊢
              rcases List.mem_append.mp hc with h | h
              · exact absurd (hclean c h hcum) (by simp [hws])
              · have hb := procToken_badcall ign st _ _ _ c h hcum hws
                rw [hb] at heq
                injection heq with hm
                exact ⟨pre.length, by rw [← hm]⟩

/-- A scan failure becomes an error outcome of `parse` with the same index
and message. -/
theorem parse_outcome_of_failed (st : Registry) (args : List String) (ign : Bool)
    (i : Nat) (m : String) (h : (parseLoop ign args.length st [] [] args).exit = .failed i m) :
    (parse ⟨st, false⟩ args ign).outcome = .err i m := by
  simp only [parse]
  rw [if_neg Bool.false_ne_true]
  rcases hres : parseLoop ign args.length st [] [] args with ⟨st2, ex, fr, tr⟩
  rw [hres] at h
  simp only at h
  subst h
  rfl

/-- C5 (amended): the parser does invoke a non-cumulative flag's `set` with
`isSet` already true when the flag occurs repeatedly within one argument
sequence; whenever it does so, the resulting `AlreadySetError` is surfaced
as a positional parse error with the message `Flag already set`.  (Only
across separate `parse()` invocations does the `parseCalled` latch prevent
re-invocation.) -/
theorem alreadySet_surfaces_as_parse_error (st : Registry) (args : List String) (ign : Bool)
    (c : SetCall) (hc : c ∈ (parse ⟨st, false⟩ args ign).trace)
    (hcum : c.cumulative = false) (hws : c.wasSet = true) :
    ∃ i, (parse ⟨st, false⟩ args ign).outcome = .err i "Flag already set" := by
  rw [parse_trace_eq] at hc
  obtain ⟨i, hexit⟩ :=
    parseLoop_alreadySet ign args.length args st [] [] (by simp) c hc hcum hws
  exact ⟨i, parse_outcome_of_failed st args ign i _ hexit⟩

/-- Witness for the amended C5: on the duplicate occurrence input the
recorded second invocation has `wasSet` true and the parse indeed errors
with the `AlreadySetError` message. -/
theorem alreadySet_surfaces_witness :
    ∃ i, (parse ⟨[helpFlag, mkStringFlag "one" (some "")], false⟩
      ["--one=a", "--one=b"]).outcome = .err i "Flag already set" :=
  alreadySet_surfaces_as_parse_error _ _ _ ⟨"one", some "b", true, false⟩ (by decide) rfl rfl

/-- Witness for C9: the spec's example — with `verbose` declared Boolean
with default true and `noverbose` undeclared, `--noverbose` resolves to one
`set` invocation on `verbose` with the literal `"0"`, and `get("verbose")`
afterwards is `false`. -/
theorem no_prefix_reinterpretation_witness :
    ('=' ∉ "verbose".data) ∧
    (parse ⟨[helpFlag, mkBooleanFlag "verbose" (some true)], false⟩
      ["--no" ++ "verbose"]).trace =
      [⟨"verbose", some "0", (mkBooleanFlag "verbose" (some true)).isSet,
        (mkBooleanFlag "verbose" (some true)).kind.isMulti⟩] ∧
    (lookupFlag (parse ⟨[helpFlag, mkBooleanFlag "verbose" (some true)], false⟩
      ["--noverbose"]).state.flags "verbose").map descGet = some (some (.bool false)) :=
  ⟨by decide,
    (no_prefix_reinterpretation "verbose" [helpFlag, mkBooleanFlag "verbose" (some true)]
      (by decide)).1 (mkBooleanFlag "verbose" (some true)) rfl rfl,
    by decide⟩

/-- Modelled from the spec: after a completed scan, if some descriptor has
`isRequired` true and `isSet` false, `parse` raises
`MissingRequiredFlagError` naming a flag in exactly that state (C1). -/
theorem missing_required_flag_error (st : Registry) (args : List String) (ign : Bool)
    (hcomp : (parseLoop ign args.length st [] [] args).exit = .completed)
    (hmiss : ∃ f ∈ (parseLoop ign args.length st [] [] args).st,
      f.isRequired = true ∧ f.isSet = false) :
    ∃ f ∈ (parseLoop ign args.length st [] [] args).st,
      f.isRequired = true ∧ f.isSet = false ∧
      (parse ⟨st, false⟩ args ign).outcome = .missingRequired f.name := by
  simp only [parse]
  rw [if_neg Bool.false_ne_true]
  rcases hres : parseLoop ign args.length st [] [] args with ⟨st2, ex, fr, tr⟩
  rw [hres] at hcomp hmiss
  simp only at hcomp hmiss ⊢
  subst hcomp
  rcases hfind : findMissingRequired st2 with _ | f
  · exfalso
    obtain ⟨f, hf, hreq, hset⟩ := hmiss
    have := List.find?_eq_none.mp hfind f hf
    simp [hreq, hset] at this
  · have hmem := List.mem_of_find?_eq_some hfind
    have hprop := List.find?_some hfind
    simp only [Bool.and_eq_true, Bool.not_eq_true'] at hprop
    exact ⟨f, hmem, hprop.1, hprop.2, rfl⟩

/-- Witness for C1: the spec's example — a required integer flag `one`
never set by `parse([])` makes the parse fail naming `one`. -/
theorem missing_required_flag_error_witness :
    ∃ f ∈ (parseLoop false ([] : List String).length
        [helpFlag, (mkIntegerFlag "one" (some 1)).setRequired true] [] [] []).st,
      f.isRequired = true ∧ f.isSet = false ∧
      (parse ⟨[helpFlag, (mkIntegerFlag "one" (some 1)).setRequired true], false⟩
        []).outcome = .missingRequired f.name :=
  missing_required_flag_error [helpFlag, (mkIntegerFlag "one" (some 1)).setRequired true]
    [] false rfl ⟨(mkIntegerFlag "one" (some 1)).setRequired true,
      List.Mem.tail _ (List.Mem.head _), rfl, rfl⟩

/-- C8 (amended): the space-separated-value step.  The extracted value is
null exactly when no `=` was present and no eligible — existing, non-empty,
not `--`-prefixed — following element existed; when an eligible element
follows a no-`=` token it is consumed as the value and the scan advances
past it, the element at the current index becoming the merged text. -/
theorem extractValue_spec (arg : String) (rest : List String) :
    ((extractValue arg rest).2.1 = none ↔
      ((splitFlagToken arg).2 = none ∧
        (rest = [] ∨ ∃ n rs, rest = n :: rs ∧ (n = "" ∨ jsStartsWith n "--" = true)))) ∧
    (∀ n rs, rest = n :: rs → (splitFlagToken arg).2 = none → n ≠ "" →
      jsStartsWith n "--" = false →
      extractValue arg rest = ((splitFlagToken arg).1, some n, arg ++ " " ++ n, rs)) := by
  constructor
  · rcases hv : (splitFlagToken arg).2 with _ | v
    · rcases rest with _ | ⟨n, rs⟩
      · simp [extractValue, hv]
      · by_cases hc : (jsTruthyStr n && ! jsStartsWith n "--") = true
        · simp only [extractValue, hv, if_pos hc]
          simp only [Bool.and_eq_true, Bool.not_eq_true', jsTruthyStr,
            ne_eq, decide_eq_true_eq] at hc
          simp [hc.1, hc.2]
        · simp only [extractValue, hv, if_neg hc]
          simp only [Bool.and_eq_true, Bool.not_eq_true', jsTruthyStr, ne_eq,
            decide_eq_true_eq, not_and_or, not_not, Bool.not_eq_false] at hc
          rcases hc with hc | hc <;> simp [hc]
    · simp [extractValue, hv]
  · intro n rs hr hv hne hsw
    subst hr
    simp only [extractValue, hv]
    rw [if_pos (by simp [jsTruthyStr, hne, hsw])]

/-- Witness for the amended C8: the spec's space-form example consumes
`aaa` as the value of `--one` and merges the elements, while an empty
following element leaves the value null. -/
theorem extractValue_spec_witness :
    extractValue "--one" ["aaa"] =
      ((splitFlagToken "--one").1, some "aaa", "--one" ++ " " ++ "aaa", []) ∧
    (extractValue "--s" [""]).2.1 = none :=
  ⟨(extractValue_spec "--one" ["aaa"]).2 "aaa" [] rfl (by decide) (by decide) (by decide),
    (extractValue_spec "--s" [""]).1.mpr ⟨by decide, Or.inr ⟨"", [], rfl, Or.inl rfl⟩⟩⟩

/-- The scanning loop never lengthens the argument array: elements are only
rewritten in place or spliced out. -/
theorem parseLoop_finalRem_length (ign : Bool) :
    ∀ (fuel : Nat) (rem : List String) (st : Registry) (pre : List String) (tr : List SetCall),
      (parseLoop ign fuel st pre tr rem).finalRem.length ≤ rem.length := by
  intro fuel
  induction fuel with
  | zero =>
    intro rem st pre tr
    match rem with
    | [] => simp [parseLoop]
    | arg :: rest => simp [parseLoop]
  | succ n ih =>
    intro rem st pre tr
    match rem with
    | [] => simp [parseLoop]
    | arg :: rest =>
      simp only [parseLoop]
      by_cases h1 : arg = "--"
      · rw [if_pos h1]
      · rw [if_neg h1]
        by_cases h2 : jsStartsWith arg "--" = true
        case neg => rw [if_neg h2]
        case pos =>
          rw [if_pos h2]
          rcases h3 : (splitFlagToken arg).2 with _ | v
          · rcases rest with _ | ⟨next, rest2⟩
            · simp only [h3]
              rcases heq : (procToken ign st (splitFlagToken arg).1 none arg).err with _ | m
              · simp only [heq]
                have hih := ih [] (procToken ign st (splitFlagToken arg).1 none arg).st
                  (pre ++ [arg]) (tr ++ (procToken ign st (splitFlagToken arg).1 none arg).calls)
                simp only [List.length_cons] at hih ⊢
                omega
              · simp only [heq, List.length_cons, le_refl]
            · simp only [h3]
              by_cases h4 : (jsTruthyStr next && ! jsStartsWith next "--") = true
              case pos =>
                rw [if_pos h4]
                rcases heq : (procToken ign st (splitFlagToken arg).1 (some next) arg).err
                  with _ | m
                · simp only [heq]
                  have hih := ih rest2
                    (procToken ign st (splitFlagToken arg).1 (some next) arg).st
                    (pre ++ [arg ++ " " ++ next])
                    (tr ++ (procToken ign st (splitFlagToken arg).1 (some next) arg).calls)
                  simp only [List.length_cons] at hih ⊢
                  omega
                · simp only [heq, List.length_cons]
                  omega
              case neg =>
                rw [if_neg h4]
                rcases heq : (procToken ign st (splitFlagToken arg).1 none arg).err with _ | m
                · simp only [heq]
                  have hih := ih (next :: rest2)
                    (procToken ign st (splitFlagToken arg).1 none arg).st (pre ++ [arg])
                    (tr ++ (procToken ign st (splitFlagToken arg).1 none arg).calls)
                  simp only [List.length_cons] at hih ⊢
                  omega
                · simp only [heq, List.length_cons, le_refl]
          · simp only [h3]
            rcases heq : (procToken ign st (splitFlagToken arg).1 (some v) arg).err with _ | m
            · simp only [heq]
              have hih := ih rest (procToken ign st (splitFlagToken arg).1 (some v) arg).st
                (pre ++ [arg])
                (tr ++ (procToken ign st (splitFlagToken arg).1 (some v) arg).calls)
              simp only [List.length_cons] at hih ⊢
              omega
            · simp only [heq, List.length_cons, le_refl]

/-- C10: `parse` mutates the caller's argument array.  Whenever the scan
meets a no-`=` flag token followed by an eligible value element, the array
the caller sees afterwards has the flag element overwritten with the merged
`--flag value` text and the value element spliced out (the remainder only
ever shrinks further); concretely, `parse(["--one", "aaa"])` leaves the
caller's array as the one-element, element-wise different `["--one aaa"]`. -/
theorem parse_mutates_argument_array :
    (∀ (ign : Bool) (fuel : Nat) (st : Registry) (pre : List String) (tr : List SetCall)
      (arg next : String) (rest : List String),
      arg ≠ "--" → jsStartsWith arg "--" = true → (splitFlagToken arg).2 = none →
      next ≠ "" → jsStartsWith next "--" = false →
      ∃ tail, (parseLoop ign (fuel + 1) st pre tr (arg :: next :: rest)).finalRem =
        (arg ++ " " ++ next) :: tail ∧ tail.length ≤ rest.length) ∧
    ((parse ⟨[helpFlag, mkStringFlag "one" (some "111")], false⟩ ["--one", "aaa"]).finalArgs =
      ["--one aaa"] ∧
      (["--one aaa"] : List String).length < (["--one", "aaa"] : List String).length ∧
      "--one aaa" ≠ "--one" ∧ (["--one aaa"] : List String) ≠ ["--one", "aaa"]) := by
  constructor
  · intro ign fuel st pre tr arg next rest h1 h2 h3 h4 h5
    simp only [parseLoop, if_neg h1, if_pos h2, h3]
    rw [if_pos (by simp [jsTruthyStr, h4, h5])]
    rcases heq : (procToken ign st (splitFlagToken arg).1 (some next) arg).err with _ | m
    · simp only [heq]
      exact ⟨_, rfl, parseLoop_finalRem_length ign fuel _ _ _ _⟩
    · simp only [heq]
      exact ⟨rest, rfl, le_refl _⟩
  · exact ⟨by decide, by decide, by decide, by decide⟩

/-- Witness for C10 at a concrete loop state: processing `["--one", "aaa"]`
against the string flag `one` leaves the merged element and an empty
remainder. -/
theorem parse_mutates_argument_array_witness :
    ∃ tail, (parseLoop false 2 [helpFlag, mkStringFlag "one" (some "111")] [] []
      ["--one", "aaa"]).finalRem = ("--one" ++ " " ++ "aaa") :: tail ∧
      tail.length ≤ ([] : List String).length :=
  parse_mutates_argument_array.1 false 1 [helpFlag, mkStringFlag "one" (some "111")] [] []
    "--one" "aaa" [] (by decide) (by decide) (by decide) (by decide) (by decide)

/-- Flattening `n` copies of a one-element list gives `n` copies of the
element. -/
theorem flatten_replicate_one (c : Char) : ∀ n : Nat,
    (List.replicate n [c]).flatten = List.replicate n c := by
  intro n
  induction n with
  | zero => rfl
  | succ k ih => simp [List.replicate_succ, ih]

/-- The space run produced by `new Array(n + 2).join(" ")`. -/
theorem newArrayJoin_space_data (n : Nat) :
    (newArrayJoin (n + 2) " ").data = List.replicate (n + 1) ' ' := by
  have h1 : (List.replicate (n + 1) " ").map String.data = List.replicate (n + 1) [' '] :=
    List.map_replicate
  simp [newArrayJoin, String.data_join, h1, flatten_replicate_one]

/-- The caret run produced by `new Array(n + 1).join("^")`. -/
theorem newArrayJoin_caret_data (n : Nat) :
    (newArrayJoin (n + 1) "^").data = List.replicate n '^' := by
  have h1 : (List.replicate n "^").map String.data = List.replicate n ['^'] :=
    List.map_replicate
  simp [newArrayJoin, String.data_join, h1, flatten_replicate_one]

/-- Unfolding a `join` over a nonempty tail. -/
theorem jsJoin_cons_data (sep a : String) (ts : List String) :
    (jsJoin sep (a :: ts)).data =
      a.data ++ (if ts = [] then [] else sep.data ++ (jsJoin sep ts).data) := by
  rcases ts with _ | ⟨b, t2⟩
  · simp [jsJoin]
  · simp [jsJoin, String.data_append]

/-- The space-joined argument line decomposes, at any in-range index, into
the joined prefix, the separating space (absent at index 0), the token
itself, and a remainder. -/
theorem jsJoin_split (l : List String) (i : Nat) (h : i < l.length) :
    ∃ tail, (jsJoin " " l).data =
      (jsJoin " " (l.take i)).data ++
        ((if i = 0 then [] else [' ']) ++ ((l.getD i "").data ++ tail)) := by
  induction l generalizing i with
  | nil => simp at h
  | cons a t ihl =>
    rcases i with _ | i2
    · refine ⟨if t = [] then [] else " ".data ++ (jsJoin " " t).data, ?_⟩
      rw [jsJoin_cons_data]
      simp [jsJoin]
    · have hi2 : i2 < t.length := by simpa using h
      obtain ⟨tail, htail⟩ := ihl i2 hi2
      refine ⟨tail, ?_⟩
      have ht : t ≠ [] := by
        intro hh
        rw [hh] at hi2
        simp at hi2
      rw [jsJoin_cons_data, if_neg ht, htail,
        show (a :: t).take (i2 + 1) = a :: t.take i2 from rfl, jsJoin_cons_data]
      by_cases hi0 : i2 = 0
      · subst hi0
        simp [jsJoin, List.append_assoc]
      · have htk : t.take i2 ≠ [] := by
          rcases t with _ | ⟨b, t2⟩
          · exact absurd rfl ht
          · rcases i2 with _ | k
            · exact absurd rfl hi0
            · simp
        rw [if_neg htk]
        simp [hi0, List.append_assoc]

/-- C4 (amended): the formatted parse error consists of the error line, the
argument line joined by single spaces behind a two-space indent, and a
caret line that is exactly a run of spaces followed by a caret run spanning
the offending token's length.  The token starts at column
`2 + prefix + (1 if i > 0)` of the argument line, while the caret run
starts at column `prefix + 2`: exactly the token's start column at index 0,
and one column earlier (under the separating space) for every later
index. -/
theorem caret_line_shape (args : List String) (i : Nat) (msg : String)
    (h : i < args.length) :
    flagParseErrorMessage args i msg =
      ("FLAG PARSING ERROR: " ++ msg) ++ "\n" ++ ("  " ++ jsJoin " " args) ++ "\n" ++
        (strSpaces ((jsJoin " " (args.take i)).length + 2) ++
          strCarets (args.getD i "").length) ∧
    ((("  " ++ jsJoin " " args).data.drop
        (2 + (jsJoin " " (args.take i)).length + (if i = 0 then 0 else 1))).take
      (args.getD i "").length = (args.getD i "").data) ∧
    (i = 0 → (jsJoin " " (args.take i)).length + 2 =
      2 + (jsJoin " " (args.take i)).length + (if i = 0 then 0 else 1)) ∧
    (0 < i → (jsJoin " " (args.take i)).length + 2 + 1 =
      2 + (jsJoin " " (args.take i)).length + (if i = 0 then 0 else 1)) := by
  refine ⟨?_, ?_, ?_, ?_⟩
  · apply String.ext
    have hrep : List.replicate ((jsJoin " " (args.take i)).length + 2) ' ' =
        ' ' :: List.replicate ((jsJoin " " (args.take i)).length + 1) ' ' := rfl
    simp only [flagParseErrorMessage, String.data_append, newArrayJoin_space_data,
      newArrayJoin_caret_data, strSpaces, strCarets, hrep]
    simp [List.append_assoc]
  · obtain ⟨tail, hsplit⟩ := jsJoin_split args i h
    have hdata : ("  " ++ jsJoin " " args).data =
        (' ' :: ' ' :: ((jsJoin " " (args.take i)).data ++ (if i = 0 then [] else [' ']))) ++
          ((args.getD i "").data ++ tail) := by
      rw [String.data_append, hsplit]
      simp [List.append_assoc]
    rw [hdata]
    have hsl : (jsJoin " " (args.take i)).data.length = (jsJoin " " (args.take i)).length :=
      rfl
    have hlen : (' ' :: ' ' ::
        ((jsJoin " " (args.take i)).data ++ (if i = 0 then [] else [' ']))).length =
        2 + (jsJoin " " (args.take i)).length + (if i = 0 then 0 else 1) := by
      by_cases h0 : i = 0 <;> simp [h0, hsl] <;> omega
    rw [← hlen, List.drop_left,
      show (args.getD i "").length = (args.getD i "").data.length from rfl, List.take_left]
  · intro h0
    simp [h0]
    omega
  · intro hpos
    have h0 : ¬ i = 0 := by omega
    simp [h0]
    omega

/-- Witness for the amended C4 at the counterexample input: the message for
index 1 of `["--a", "--b"]` has the stated three-line shape. -/
theorem caret_line_shape_witness :
    flagParseErrorMessage ["--a", "--b"] 1 "m" =
      ("FLAG PARSING ERROR: " ++ "m") ++ "\n" ++ ("  " ++ jsJoin " " ["--a", "--b"]) ++ "\n" ++
        (strSpaces ((jsJoin " " (["--a", "--b"].take 1)).length + 2) ++
          strCarets ((["--a", "--b"].getD 1 "").length)) :=
  (caret_line_shape ["--a", "--b"] 1 "m" (by decide)).1

end NodeFlags
